import Mathlib

/-!
# Verification of the Siglent oscilloscope driver and BIN import filter

Shallow embedding of `scopehal/SiglentMinOscilloscope.cpp` and
`scopeprotocols/SiglentBINImportFilter.cpp` (the second, current revision in
that file), together with proofs about the embedded definitions.

Conventions:
* `std::map<K,V>` lookup tables are embedded as `Nat → Option V`; C++
  `operator[]` (which default-inserts a value-initialized element) is
  embedded by `mapIndex`, and map assignment by `mapInsert`.
* machine bytes are `Nat` values `< 256`; `uint32_t` arithmetic carries an
  explicit `% 2^32` where wraparound is possible.
* `double`/`float` quantities are embedded as `ℚ` (the claims under test are
  about the algebraic form of the computation, not rounding).
* the SCPI transport is embedded as an infinite byte source `Nat → Nat`
  plus a read position; `ReadRawData n` yields the next `n` bytes and
  advances the position (the real call blocks until `n` bytes arrive).
-/

namespace SiglentMin

/-- `std::map<int,bool> m_channelsEnabled`: per-channel enable cache. -/
def EnMap : Type := Nat → Option Bool

/-- Map assignment `m[k] = v` (insert or overwrite). -/
def mapInsert (m : EnMap) (k : Nat) (v : Bool) : EnMap :=
  fun j => if j = k then some v else m j

/-- C++ `operator[]`: return the stored value, default-inserting `false`
(value-initialization of `bool`) when the key is absent.  Returns the
possibly-extended map together with the value read. -/
def mapIndex (m : EnMap) (k : Nat) : EnMap × Bool :=
  match m k with
  | some v => (m, v)
  | none => (mapInsert m k false, false)

/-- The `else if((m_channelsEnabled[3] == true) && (m_channelsEnabled[4] == true))`
branch of `IsInterleaving` (source comment: "Channel 3 and 4"), including the
short-circuit of `&&`: key 4 is only read when key 3 held `true`. -/
def checkPair34 (m : EnMap) : EnMap × Bool :=
  let r3 := mapIndex m 3
  if r3.2 then
    let r4 := mapIndex r3.1 4
    if r4.2 then (r4.1, false) else (r4.1, true)
  else (r3.1, true)

/-- `SiglentMinOscilloscope::IsInterleaving`: returns `false` when the map
reads `true` at keys 0 and 1, or at keys 3 and 4; otherwise `true`.
`operator[]` accesses thread the map through (default-inserting reads), and
`&&` short-circuits exactly as in C++.  The function body issues no
transport command. -/
def isInterleaving (m : EnMap) : EnMap × Bool :=
  let r0 := mapIndex m 0
  if r0.2 then
    let r1 := mapIndex r0.1 1
    if r1.2 then (r1.1, false) else checkPair34 r1.1
  else checkPair34 r0.1

/-- `SiglentMinOscilloscope::IsChannelEnabled`: early-out on a cache hit;
otherwise, for an analog channel, one `:CHANNEL<n>:SWITCH?` round trip whose
reply enables the channel unless it starts with "OFF"; the final
`return m_channelsEnabled[i]` is a default-inserting read.  Result:
(returned value, updated cache, number of instrument round trips). -/
def isChannelEnabled (nAnalog : Nat) (reply : String) (m : EnMap) (i : Nat) :
    Bool × EnMap × Nat :=
  match m i with
  | some v => (v, m, 0)
  | none =>
    if i < nAnalog then
      let m := mapInsert m i (!(reply.startsWith "OFF"))
      ((mapIndex m i).2, (mapIndex m i).1, 1)
    else
      ((mapIndex m i).2, (mapIndex m i).1, 0)

/-- Cached driver state relevant to channel enable handling. -/
structure DriverSt where
  en : EnMap
  sampleRateValid : Bool
  memoryDepthValid : Bool

/-- `SiglentMinOscilloscope::EnableChannel`: query interleaving, send
`:CHANNEL<n>:SWITCH ON` for analog channels, set the cache entry to `true`,
query interleaving again and invalidate the sample-rate and memory-depth
flags when the report changed.  Also returns the list of commands sent. -/
def enableChannel (nAnalog : Nat) (st : DriverSt) (i : Nat) :
    DriverSt × List String :=
  let was := isInterleaving st.en
  let cmds := if i < nAnalog then [s!"CHANNEL{i+1}:SWITCH ON"] else []
  let now := isInterleaving (mapInsert was.1 i true)
  if now.2 ≠ was.2 then
    ({ en := now.1, sampleRateValid := false, memoryDepthValid := false }, cmds)
  else
    ({ st with en := now.1 }, cmds)

/-- `SiglentMinOscilloscope::DisableChannel`: query interleaving, set the
cache entry to `false`, send `:CHANNEL<n>:SWITCH OFF` for analog channels,
query interleaving again and invalidate the sample-rate and memory-depth
flags when the report changed. -/
def disableChannel (nAnalog : Nat) (st : DriverSt) (i : Nat) :
    DriverSt × List String :=
  let was := isInterleaving st.en
  let cmds := if i < nAnalog then [s!"CHANNEL{i+1}:SWITCH OFF"] else []
  let now := isInterleaving (mapInsert was.1 i false)
  if now.2 ≠ was.2 then
    ({ en := now.1, sampleRateValid := false, memoryDepthValid := false }, cmds)
  else
    ({ st with en := now.1 }, cmds)

/-- `std::map<size_t,float> m_channelOffsets`, floats embedded as `ℚ`. -/
def OffsetMap : Type := Nat → Option ℚ

/-- `SiglentMinOscilloscope::GetChannelOffset`: indices strictly above the
analog channel count return 0 immediately; otherwise a cache hit returns the
cached value, and a miss performs one `:CHANNEL<n>:OFFSET?` round trip
(instrument reply embedded as the rational `reply`) and caches the parsed
value.  Result: (returned value, updated cache, number of round trips). -/
def getChannelOffset (nAnalog : Nat) (reply : ℚ) (m : OffsetMap) (i : Nat) :
    ℚ × OffsetMap × Nat :=
  if i > nAnalog then (0, m, 0)
  else
    match m i with
    | some v => (v, m, 0)
    | none => (reply, fun j => if j = i then some reply else m j, 1)

/-- `SiglentMinOscilloscope::SetChannelOffset`: indices strictly above the
analog channel count are ignored; otherwise send `:CHANNEL<n>:OFFSET` and
cache the new value.  Result: (updated cache, commands sent). -/
def setChannelOffset (nAnalog : Nat) (m : OffsetMap) (i : Nat) (v : ℚ) :
    OffsetMap × List String :=
  if i > nAnalog then (m, [])
  else ((fun j => if j = i then some v else m j), [s!"CHANNEL{i+1}:OFFSET"])

/-- Trigger bookkeeping: `m_triggerArmed`, `m_triggerOneShot`, `m_triggerForced`. -/
structure TrigSt where
  armed : Bool
  oneShot : Bool
  forced : Bool
deriving DecidableEq, Repr

/-- `Oscilloscope::TriggerMode` values used by the driver. -/
inductive TriggerMode where
  | RUN
  | STOP
  | TRIGGERED
deriving DecidableEq, Repr

/-- `SiglentMinOscilloscope::PollTrigger`: a pending force-trigger is
consumed first, clearing both flags and reporting TRIGGERED with no
instrument query; otherwise one `:TRIGGER:STATUS?` round trip is made and
the reply string drives the transition table.  Result:
(updated state, reported mode, number of round trips). -/
def pollTrigger (st : TrigSt) (status : String) : TrigSt × TriggerMode × Nat :=
  if st.forced then
    ({ st with forced := false, armed := false }, TriggerMode.TRIGGERED, 0)
  else if status = "Arm" ∨ status = "Ready" then
    ({ st with armed := true }, TriggerMode.RUN, 1)
  else if status = "Stop" then
    if st.armed then
      if st.oneShot then
        ({ st with armed := false }, TriggerMode.TRIGGERED, 1)
      else
        (st, TriggerMode.TRIGGERED, 1)
    else
      (st, TriggerMode.STOP, 1)
  else
    (st, TriggerMode.RUN, 1)

/-- `SiglentMinOscilloscope::ForceTrigger`: no-op when a force is already
pending; otherwise mark it pending, issue `:TRIGGER:MODE FTRIG`, and set
armed and one-shot. -/
def forceTrigger (st : TrigSt) : TrigSt :=
  if st.forced then st
  else { forced := true, armed := true, oneShot := true }

/-- The transport byte stream: an infinite byte source plus a read
position.  `SCPITransport::ReadRawData` blocks until the requested bytes
arrive, so a read of `n` bytes always yields `n` bytes and advances the
position by `n`. -/
structure Xport where
  src : Nat → Nat
  pos : Nat

/-- `ReadRawData(n, buf)`: the next `n` bytes, and the advanced transport. -/
def readRawData (n : Nat) (t : Xport) : List Nat × Xport :=
  ((List.range n).map (fun k => t.src (t.pos + k)), { t with pos := t.pos + n })

/-- ASCII codes of `"DESC,#9"`. -/
def descTag : List Nat := [68, 69, 83, 67, 44, 35, 57]

/-- ASCII codes of `"DAT2,#9"`. -/
def dat2Tag : List Nat := [68, 65, 84, 50, 44, 35, 57]

/-- ASCII codes of `":WF D"` (the inner tag compared at offset 2). -/
def wfdTag : List Nat := [58, 87, 70, 32, 68]

/-- ASCII codes of `"#9"`. -/
def hash9Tag : List Nat := [35, 57]

/-- C `atoi` on the NUL-terminated 9-byte buffer `packetSizeSequence`:
the leading run of ASCII digits read as a decimal number.  (The claims
under test supply all-digit buffers, on which this agrees with `atoi`;
sign and whitespace handling are never exercised.) -/
def atoiBytes (bs : List Nat) : Nat :=
  (bs.takeWhile (fun c => 48 ≤ c ∧ c ≤ 57)).foldl (fun acc c => 10 * acc + (c - 48)) 0

/-- Result of `SiglentMinOscilloscope::ReadWaveformBlock`:
the `int` return value, the number of payload bytes written into `data`,
the payload bytes themselves, and whether the error path
("invalid length format") was taken. -/
structure BlockResult where
  ret : Nat
  destLen : Nat
  dest : List Nat
  error : Bool
deriving DecidableEq, Repr

/-- Common tail of `ReadWaveformBlock` once the 9 length digits are in
`packetSizeSequence`: parse with `atoi`, double under the
high-definition-size workaround, clamp to `maxsize`, read that many payload
bytes, and return the un-clamped (possibly doubled) declared length.
`uint32_t` arithmetic carries an explicit `% 2^32`. -/
def finishBlock (digits : List Nat) (maxsize : Nat) (hdWorkaround : Bool)
    (t : Xport) : BlockResult × Xport :=
  let getLength := atoiBytes digits
  let lenRaw := if hdWorkaround then (2 * getLength) % 2 ^ 32 else getLength
  let len := min lenRaw maxsize
  let r := readRawData len t
  ({ ret := lenRaw, destLen := len, dest := r.1, error := false }, r.2)

/-- `SiglentMinOscilloscope::ReadWaveformBlock`: read a 7-byte prefix and
dispatch on its shape.
* `"DESC,#9"` / `"DAT2,#9"`: the next 9 bytes are the decimal length;
* `":WF D"` at offset 2 (forced-trigger reply): discard 6 bytes, then the
  next 9 bytes are the decimal length;
* bare `"#9"`: bytes 2..6 of the prefix are the first 5 length digits
  (the `memmove`), and 4 more bytes complete the field;
* anything else: log an error and return 0, reading nothing further. -/
def readWaveformBlock (maxsize : Nat) (hdWorkaround : Bool) (t : Xport) :
    BlockResult × Xport :=
  let rh := readRawData 7 t
  let hdr := rh.1
  if hdr = descTag ∨ hdr = dat2Tag then
    let rd := readRawData 9 rh.2
    finishBlock rd.1 maxsize hdWorkaround rd.2
  else if hdr.drop 2 = wfdTag then
    let rj := readRawData 6 rh.2
    let rd := readRawData 9 rj.2
    finishBlock rd.1 maxsize hdWorkaround rd.2
  else if hdr.take 2 = hash9Tag then
    let rd := readRawData 4 rh.2
    finishBlock (hdr.drop 2 ++ rd.1) maxsize hdWorkaround rd.2
  else
    ({ ret := 0, destLen := 0, dest := [], error := true }, rh.2)

/-- Build a concrete byte source from a list (zeros past the end). -/
def srcOfList (l : List Nat) : Nat → Nat :=
  fun k => l.getD k 0

end SiglentMin

namespace SiglentBIN

/-- `SiglentBINImportFilter::ConvertDigitalSamplesGeneric(pout+outBase,
pin+inBase, count)`: for each input byte `i < count` and bit `j < 8`,
`pout[outBase + 8*i + j] = (pin[inBase + i] >> j) & 1`.  Buffers are
functions; positions outside the written range keep their old contents.
The `uint8_t` load is `% 256`. -/
def convertDigitalSamplesGeneric (pout : Nat → Bool) (pin : Nat → Nat)
    (outBase inBase count : Nat) : Nat → Bool :=
  fun idx =>
    if outBase ≤ idx ∧ idx < outBase + 8 * count then
      (((pin (inBase + (idx - outBase) / 8) % 256) >>> ((idx - outBase) % 8)) &&& 1) == 1
    else pout idx

/-- `SiglentBINImportFilter::ConvertDigitalSamplesAVX2(pout+outBase,
pin+inBase, count)`, lane-wise semantics of the intrinsics.  The vector
loop runs over `k < end` in groups of 4 input bytes, where
`unsigned int end = count - (count % 4)` (modelled with its `% 2^32`
truncation); each output byte `8*k + j` of a group is
`(byte & mask_j) == mask_j` masked to bit 0, with `mask_j = 2^j` the `j`-th
little-endian byte of the broadcast constant `0x8040201008040201`.
The scalar tail covers `end ≤ i < count` with the bit-test loop. -/
def convertDigitalSamplesAVX2 (pout : Nat → Bool) (pin : Nat → Nat)
    (outBase inBase count : Nat) : Nat → Bool :=
  let e := (count - count % 4) % 2 ^ 32
  fun idx =>
    if outBase ≤ idx ∧ idx < outBase + 8 * count then
      let i := (idx - outBase) / 8
      let j := (idx - outBase) % 8
      if i < e then
        ((pin (inBase + i) % 256) &&& 2 ^ j) == 2 ^ j
      else
        (((pin (inBase + i) % 256) >>> j) &&& 1) == 1
    else pout idx

/-- `SiglentBINImportFilter::ConvertDigitalSamples`: waveforms above
1000000/8 input bytes are split into `omp_get_max_threads()` blocks of
`blocksize = (count / numblocks) - ((count / numblocks) % 4)` input bytes,
the last block taking the remainder; block `i` is unpacked at input offset
`i*blocksize` and output offset `i*blocksize` (`pout + off` in the source).
The parallel loop is embedded as one sequential schedule of its
iterations.  Small waveforms are unpacked in one call at offset 0. -/
def convertDigitalSamples (numThreads : Nat) (hasAvx2 : Bool)
    (pout : Nat → Bool) (pin : Nat → Nat) (count : Nat) : Nat → Bool :=
  if count > 1000000 / 8 then
    let numblocks := numThreads
    let lastblock := numblocks - 1
    let blocksize := count / numblocks - (count / numblocks) % 4
    (List.range numblocks).foldl
      (fun out i =>
        let nsamp := if i = lastblock then count - i * blocksize else blocksize
        let off := i * blocksize
        if hasAvx2 then convertDigitalSamplesAVX2 out pin off off nsamp
        else convertDigitalSamplesGeneric out pin off off nsamp)
      pout
  else
    if hasAvx2 then convertDigitalSamplesAVX2 pout pin 0 0 count
    else convertDigitalSamplesGeneric pout pin 0 0 count

lemma lane_eq (b j : Nat) :
    ((b &&& 2 ^ j) == 2 ^ j) = (((b >>> j) &&& 1) == 1) := by
  have hpow : 0 < 2 ^ j := Nat.pos_pow_of_pos j (by norm_num)
  have h1 : b &&& 2 ^ j = (b.testBit j).toNat * 2 ^ j := Nat.and_two_pow b j
  have h2 : (b >>> j) &&& 1 = b / 2 ^ j % 2 := by
    rw [Nat.and_one_is_mod, Nat.shiftRight_eq_div_pow]
  by_cases hb : b.testBit j = true
  · have hdiv : b / 2 ^ j % 2 = 1 := by
      rw [Nat.testBit_to_div_mod] at hb
      exact of_decide_eq_true hb
    rw [h1, hb, h2, hdiv]
    simp
  · have hb' : b.testBit j = false := by simpa using hb
    have hdiv : b / 2 ^ j % 2 ≠ 1 := by
      rw [Nat.testBit_to_div_mod] at hb'
      simpa using of_decide_eq_false hb'
    rw [h1, hb', h2]
    have hz : (0 == 2 ^ j) = false := by
      rw [beq_eq_false_iff_ne]
      exact Nat.ne_of_lt hpow
    rcases Nat.mod_two_eq_zero_or_one (b / 2 ^ j) with h | h
    · simp [h, hz]
    · exact absurd h hdiv

/-- The per-lane semantics of the AVX2 unpack agree with the scalar
bit-test loop on every output position: the mask/compare/mask trick
extracts exactly bit `j` of the byte. -/
lemma convertDigitalSamplesAVX2_eq_generic
    (pout : Nat → Bool) (pin : Nat → Nat) (outBase inBase count idx : Nat) :
    convertDigitalSamplesAVX2 pout pin outBase inBase count idx =
      convertDigitalSamplesGeneric pout pin outBase inBase count idx := by
  simp only [convertDigitalSamplesAVX2, convertDigitalSamplesGeneric]
  split
  · split
    · exact lane_eq (pin (inBase + (idx - outBase) / 8) % 256) ((idx - outBase) % 8)
    · rfl
  · rfl

/-- C7: the multithreaded dispatcher does not reproduce the scalar unpack.
With 2 worker threads and 125004 input bytes of `0xFF` (above the 1M-sample
threshold, `blocksize = 62500`), the scalar path sets output sample
1000031 (= bit 7 of the last byte) to `true`, but the dispatcher — which
offsets block `i`'s output by `i*blocksize` bool positions instead of
`8*i*blocksize` (`pout + off` in the source) — never writes that position
at all, with or without AVX2, leaving the initial `false`; its blocks'
output ranges moreover overlap instead of being disjoint. -/
theorem convertDigitalSamples_dispatcher_misplaces_blocks :
    convertDigitalSamplesGeneric (fun _ => false) (fun _ => 255) 0 0 125004
        1000031 = true ∧
    convertDigitalSamples 2 false (fun _ => false) (fun _ => 255) 125004
        1000031 = false ∧
    convertDigitalSamples 2 true (fun _ => false) (fun _ => 255) 125004
        1000031 = false := by
  refine ⟨?_, ?_, ?_⟩ <;> decide

/-- The V2/V4 `WaveHeader` fields used by the decoder (current revision of
`SiglentBINImportFilter.cpp`); `double` fields are embedded as `ℚ`,
`int32_t` enables as `Int`, lengths (`uint32_t`) as `Nat`. -/
structure WaveHeader where
  ch_en : Fin 4 → Int
  ch_v_gain : Fin 4 → ℚ
  ch_v_offset : Fin 4 → ℚ
  ch_probe : Fin 4 → ℚ
  ch_codes_per_div : Fin 4 → Int
  digital_en : Int
  d_ch_en : Fin 16 → Int
  wave_length : Nat
  s_rate : ℚ
  d_wave_length : Nat
  d_s_rate : ℚ
  data_width : Nat
  byte_order : Nat
  math_en : Fin 4 → Int
  math_v_gain : Fin 4 → ℚ
  math_v_offset : Fin 4 → ℚ
  math_wave_length : Fin 4 → Nat
  math_s_interval : Fin 4 → ℚ
  math_codes_per_div : Int

/-- Unsigned 8-bit load from the file buffer. -/
def u8At (f : Nat → Nat) (p : Nat) : Nat := f p % 256

/-- Unsigned little-endian 16-bit load from the file buffer
(`*(uint16_t*)(f.c_str()+fpos)` on a little-endian host). -/
def u16At (f : Nat → Nat) (p : Nat) : Nat := f p % 256 + 256 * (f (p + 1) % 256)

/-- Modelled from the spec: `Oscilloscope::ConvertUnsigned8BitSamples`
(declared in scopehal's Oscilloscope class; its body is not under `src/`).
Per §4.5/§4.7 of the spec the conversion is the unsigned-code affine map:
each output sample is `in[k] * gain - offset`, so that the caller's choice
`offset = gain * zeroCode + storedOffset` realizes
`(code - zeroCode) * gain - storedOffset`. -/
def convertUnsigned8BitSamples (f : Nat → Nat) (pos : Nat) (gain offset : ℚ)
    (count : Nat) : List ℚ :=
  (List.range count).map (fun k => (u8At f (pos + k) : ℚ) * gain - offset)

/-- Modelled from the spec: `Oscilloscope::ConvertUnsigned16BitSamples`
(declared in scopehal's Oscilloscope class; its body is not under `src/`).
Same affine unsigned-code conversion on little-endian 16-bit samples. -/
def convertUnsigned16BitSamples (f : Nat → Nat) (pos : Nat) (gain offset : ℚ)
    (count : Nat) : List ℚ :=
  (List.range count).map (fun k => (u16At f (pos + 2 * k) : ℚ) * gain - offset)

/-- One decoded output stream: the display name, the allocated sample
count (`wfm->Resize(...)`), and the converted samples. -/
structure AStream where
  name : String
  sampleCount : Nat
  samples : List ℚ
deriving DecidableEq

/-- The analog-channel stream built at file position `start` for channel
`i`, exactly as the loop body of `OnFileNameChanged` constructs it:
`v_gain = ch_v_gain * ch_probe / ch_codes_per_div`,
`center_code = (1 << (8*data_width' - 1)) - 1` with
`data_width' = wh.data_width + 1` bytes, conversion offset
`v_gain * center_code + ch_v_offset`. -/
def analogStreamAt (wh : WaveHeader) (f : Nat → Nat) (i : Fin 4) (start : Nat) :
    AStream :=
  let dw := wh.data_width + 1
  let vGain : ℚ := wh.ch_v_gain i * wh.ch_probe i / (wh.ch_codes_per_div i : ℚ)
  let center : ℚ := ((2 ^ (8 * dw - 1) - 1 : Int) : ℚ)
  { name := "C" ++ toString (i.1 + 1),
    sampleCount := wh.wave_length,
    samples :=
      if dw = 2 then
        convertUnsigned16BitSamples f start vGain (vGain * center + wh.ch_v_offset i) wh.wave_length
      else
        convertUnsigned8BitSamples f start vGain (vGain * center + wh.ch_v_offset i) wh.wave_length }

/-- The analog `for(int i = 0; i < 4; i++)` loop: channels with
`ch_en[i] == 1` produce a stream and advance `fpos` by
`data_width' * wave_length` bytes; disabled channels are skipped.
Returns the streams in order together with the final `fpos`. -/
def decodeAnalogLoop (wh : WaveHeader) (f : Nat → Nat) :
    List (Fin 4) → Nat → List AStream × Nat
  | [], fpos => ([], fpos)
  | i :: rest, fpos =>
    if wh.ch_en i = 1 then
      let r := decodeAnalogLoop wh f rest (fpos + (wh.data_width + 1) * wh.wave_length)
      (analogStreamAt wh f i fpos :: r.1, r.2)
    else
      decodeAnalogLoop wh f rest fpos

/-- The math-channel stream built at file position `start`:
`v_gain = math_v_gain / math_codes_per_div`, same conversion shape. -/
def mathStreamAt (wh : WaveHeader) (f : Nat → Nat) (i : Fin 4) (start : Nat) :
    AStream :=
  let dw := wh.data_width + 1
  let vGain : ℚ := wh.math_v_gain i / (wh.math_codes_per_div : ℚ)
  let center : ℚ := ((2 ^ (8 * dw - 1) - 1 : Int) : ℚ)
  { name := "F" ++ toString (i.1 + 1),
    sampleCount := wh.math_wave_length i,
    samples :=
      if dw = 2 then
        convertUnsigned16BitSamples f start vGain (vGain * center + wh.math_v_offset i) (wh.math_wave_length i)
      else
        convertUnsigned8BitSamples f start vGain (vGain * center + wh.math_v_offset i) (wh.math_wave_length i) }

/-- The math `for` loop: enabled math channels produce a stream and
advance `fpos` by `data_width' * math_wave_length[i]` bytes. -/
def decodeMathLoop (wh : WaveHeader) (f : Nat → Nat) :
    List (Fin 4) → Nat → List AStream × Nat
  | [], fpos => ([], fpos)
  | i :: rest, fpos =>
    if wh.math_en i = 1 then
      let r := decodeMathLoop wh f rest (fpos + (wh.data_width + 1) * wh.math_wave_length i)
      (mathStreamAt wh f i fpos :: r.1, r.2)
    else
      decodeMathLoop wh f rest fpos

/-- One decoded digital stream: name, allocated sample count, and the
boolean samples produced by `ConvertDigitalSamples` on
`d_wave_length / 8` packed bytes. -/
structure DStream where
  name : String
  sampleCount : Nat
  samples : List Bool
deriving DecidableEq

/-- The digital `for` loop: when `digital_en` is truthy, each of the 16
bit channels with `d_ch_en[i] == 1` produces a stream unpacked by the
(possibly multithreaded) `ConvertDigitalSamples` kernel, advancing `fpos`
by `d_wave_length / 8` bytes. -/
def decodeDigitalLoop (numThreads : Nat) (hasAvx2 : Bool) (wh : WaveHeader)
    (f : Nat → Nat) : List (Fin 16) → Nat → List DStream × Nat
  | [], fpos => ([], fpos)
  | i :: rest, fpos =>
    if wh.d_ch_en i = 1 then
      let out := convertDigitalSamples numThreads hasAvx2 (fun _ => false)
        (fun k => f (fpos + k)) (wh.d_wave_length / 8)
      let s : DStream :=
        { name := "D" ++ toString i.1,
          sampleCount := wh.d_wave_length,
          samples := (List.range wh.d_wave_length).map out }
      let r := decodeDigitalLoop numThreads hasAvx2 wh f rest (fpos + wh.d_wave_length / 8)
      (s :: r.1, r.2)
    else
      decodeDigitalLoop numThreads hasAvx2 wh f rest fpos

/-- Result of `SiglentBINImportFilter::OnFileNameChanged` after the file
has been read: either the fatal unsupported-version parse error (no stream
added) or the decoded streams together with the payload base offset the
data was read from. -/
inductive DecodeResult where
  | parseError
  | ok (payloadBase : Nat) (analog : List AStream) (math : List AStream)
       (digital : List DStream)
deriving DecidableEq

/-- The payload base offset of a successful decode. -/
def DecodeResult.payloadBase? : DecodeResult → Option Nat
  | .parseError => none
  | .ok base _ _ _ => some base

/-- The analog streams of a decode (none on a parse error). -/
def DecodeResult.analogStreams : DecodeResult → List AStream
  | .parseError => []
  | .ok _ a _ _ => a

/-- The total number of output streams added by a decode. -/
def DecodeResult.streamCount : DecodeResult → Nat
  | .parseError => 0
  | .ok _ a m d => a.length + m.length + d.length

/-- `SiglentBINImportFilter::OnFileNameChanged` (current revision), after
file read and header extraction: versions other than 2 and 4 hit the
`default:` case of both version switches (log `"Unsupported version"` and
return with no stream added); version 2 reads the payload from absolute
offset 0x800 and version 4 from 0x1000, decoding analog, math and digital
channels in that order. -/
def onFileNameChanged (numThreads : Nat) (hasAvx2 : Bool) (version : Nat)
    (wh : WaveHeader) (f : Nat → Nat) : DecodeResult :=
  if version = 2 ∨ version = 4 then
    let base := if version = 2 then 0x800 else 0x1000
    let ra := decodeAnalogLoop wh f (List.finRange 4) base
    let rm := decodeMathLoop wh f (List.finRange 4) ra.2
    let dstreams :=
      if wh.digital_en ≠ 0 then
        (decodeDigitalLoop numThreads hasAvx2 wh f (List.finRange 16) rm.2).1
      else []
    DecodeResult.ok base ra.1 rm.1 dstreams
  else
    DecodeResult.parseError

lemma onFileNameChanged_analogStreams (numThreads : Nat) (hasAvx2 : Bool)
    (version : Nat) (wh : WaveHeader) (f : Nat → Nat)
    (hv : version = 2 ∨ version = 4) :
    (onFileNameChanged numThreads hasAvx2 version wh f).analogStreams =
      (decodeAnalogLoop wh f (List.finRange 4)
        (if version = 2 then 0x800 else 0x1000)).1 := by
  rcases hv with rfl | rfl <;>
    simp [onFileNameChanged, DecodeResult.analogStreams]

lemma decodeAnalogLoop_getElem? (wh : WaveHeader) (f : Nat → Nat) :
    ∀ (l : List (Fin 4)) (fpos j : Nat),
      ((decodeAnalogLoop wh f l fpos).1)[j]? =
        ((l.filter (fun i => wh.ch_en i = 1))[j]?).map
          (fun i => analogStreamAt wh f i
            (fpos + j * ((wh.data_width + 1) * wh.wave_length))) := by
  intro l
  induction l with
  | nil => intro fpos j; simp [decodeAnalogLoop]
  | cons i rest ih =>
    intro fpos j
    by_cases hi : wh.ch_en i = 1
    · cases j with
      | zero =>
        simp [decodeAnalogLoop, hi, List.filter_cons]
      | succ j =>
        simp only [decodeAnalogLoop, hi, if_true, List.filter_cons,
          decide_eq_true hi, List.getElem?_cons_succ]
        rw [ih (fpos + (wh.data_width + 1) * wh.wave_length) j]
        have harith : fpos + (wh.data_width + 1) * wh.wave_length +
            j * ((wh.data_width + 1) * wh.wave_length) =
            fpos + (j + 1) * ((wh.data_width + 1) * wh.wave_length) := by ring
        cases hfl : ((rest.filter (fun i => wh.ch_en i = 1))[j]?) <;>
          simp [hfl, harith]
    · have hi' : decide (wh.ch_en i = 1) = false := by simp [hi]
      simp only [decodeAnalogLoop, if_neg hi, List.filter_cons, hi',
        Bool.false_eq_true, if_false]
      exact ih fpos j

/-- C6: versions other than 2 and 4 are a fatal parse error — the decoder
returns without adding any output stream; version 2 reads the payload
region from absolute offset 0x800, version 4 from 0x1000. -/
theorem onFileNameChanged_version_gate :
    ∀ (numThreads : Nat) (hasAvx2 : Bool) (version : Nat) (wh : WaveHeader)
      (f : Nat → Nat),
      (version ≠ 2 → version ≠ 4 →
        onFileNameChanged numThreads hasAvx2 version wh f =
          DecodeResult.parseError ∧
        (onFileNameChanged numThreads hasAvx2 version wh f).streamCount = 0) ∧
      (onFileNameChanged numThreads hasAvx2 2 wh f).payloadBase? = some 0x800 ∧
      (onFileNameChanged numThreads hasAvx2 4 wh f).payloadBase? = some 0x1000 := by
  intro numThreads hasAvx2 version wh f
  refine ⟨?_, ?_, ?_⟩
  · intro h2 h4
    have : onFileNameChanged numThreads hasAvx2 version wh f =
        DecodeResult.parseError := by
      simp [onFileNameChanged, h2, h4]
    exact ⟨this, by rw [this]; rfl⟩
  · simp [onFileNameChanged, DecodeResult.payloadBase?]
  · simp [onFileNameChanged, DecodeResult.payloadBase?]

/-- All-zero wave header: no channel enabled. -/
def whDisabled : WaveHeader where
  ch_en := fun _ => 0
  ch_v_gain := fun _ => 0
  ch_v_offset := fun _ => 0
  ch_probe := fun _ => 0
  ch_codes_per_div := fun _ => 0
  digital_en := 0
  d_ch_en := fun _ => 0
  wave_length := 0
  s_rate := 0
  d_wave_length := 0
  d_s_rate := 0
  data_width := 0
  byte_order := 0
  math_en := fun _ => 0
  math_v_gain := fun _ => 0
  math_v_offset := fun _ => 0
  math_wave_length := fun _ => 0
  math_s_interval := fun _ => 0
  math_codes_per_div := 0

/-- Closed instance for `onFileNameChanged_version_gate`: version 3 is a
parse error adding zero streams. -/
theorem onFileNameChanged_version_gate_witness :
    ((3 : Nat) ≠ 2 ∧ (3 : Nat) ≠ 4) ∧
    onFileNameChanged 1 false 3 whDisabled (fun _ => 0) =
      DecodeResult.parseError ∧
    (onFileNameChanged 1 false 3 whDisabled (fun _ => 0)).streamCount = 0 :=
  ⟨⟨by decide, by decide⟩,
    (onFileNameChanged_version_gate 1 false 3 whDisabled (fun _ => 0)).1
      (by decide) (by decide)⟩

/-- C5: for a v2 or v4 file, the `j`-th enabled analog channel (with
8/16-bit data width) decodes to a waveform with exactly `wave_length`
samples whose `k`-th voltage is
`(rawCode - zeroCode) * v_gain - storedOffset`, where
`v_gain = rawGain * probe / codesPerDivision`,
`zeroCode = 2^(8*dataWidthBytes - 1) - 1`, and the raw code is the unsigned
8-bit byte (or unsigned little-endian 16-bit word) at the channel's
position in the payload region. -/
theorem onFileNameChanged_analog_calibration :
    ∀ (numThreads : Nat) (hasAvx2 : Bool) (version : Nat) (wh : WaveHeader)
      (f : Nat → Nat) (j : Nat) (i : Fin 4),
      (version = 2 ∨ version = 4) → wh.data_width ≤ 1 →
      ((List.finRange 4).filter (fun i => wh.ch_en i = 1))[j]? = some i →
      ∃ s, (onFileNameChanged numThreads hasAvx2 version wh f).analogStreams[j]?
          = some s ∧
        s.sampleCount = wh.wave_length ∧
        s.samples.length = wh.wave_length ∧
        (∀ k, k < wh.wave_length →
          s.samples[k]? = some
            (((if wh.data_width + 1 = 2 then
                  (u16At f ((if version = 2 then 0x800 else 0x1000) +
                    j * ((wh.data_width + 1) * wh.wave_length) + 2 * k) : ℚ)
                else
                  (u8At f ((if version = 2 then 0x800 else 0x1000) +
                    j * ((wh.data_width + 1) * wh.wave_length) + k) : ℚ))
              - ((2 ^ (8 * (wh.data_width + 1) - 1) - 1 : Int) : ℚ))
              * (wh.ch_v_gain i * wh.ch_probe i / (wh.ch_codes_per_div i : ℚ))
              - wh.ch_v_offset i)) := by
  intro numThreads hasAvx2 version wh f j i hv hw hfil
  have hstreams := onFileNameChanged_analogStreams numThreads hasAvx2 version
    wh f hv
  refine ⟨analogStreamAt wh f i
    ((if version = 2 then 0x800 else 0x1000) +
      j * ((wh.data_width + 1) * wh.wave_length)), ?_, rfl, ?_, ?_⟩
  · rw [hstreams, decodeAnalogLoop_getElem? wh f (List.finRange 4) _ j, hfil]
    rfl
  · by_cases hdw : wh.data_width + 1 = 2 <;>
      simp [analogStreamAt, hdw, convertUnsigned16BitSamples,
        convertUnsigned8BitSamples]
  · intro k hk
    by_cases hdw : wh.data_width + 1 = 2 <;>
      simp only [analogStreamAt, hdw, if_true, if_false,
        convertUnsigned16BitSamples, convertUnsigned8BitSamples,
        List.getElem?_map, List.getElem?_range, hk, Option.map_some'] <;>
      · rw [Option.some_inj]
        push_cast
        ring

/-- Wave header with channel 1 enabled, gain 3, offset 2, probe 1,
4 codes per division, one 8-bit sample. -/
def whV2Sample : WaveHeader where
  ch_en := fun i => if i = 0 then 1 else 0
  ch_v_gain := fun _ => 3
  ch_v_offset := fun _ => 2
  ch_probe := fun _ => 1
  ch_codes_per_div := fun _ => 4
  digital_en := 0
  d_ch_en := fun _ => 0
  wave_length := 1
  s_rate := 1
  d_wave_length := 0
  d_s_rate := 1
  data_width := 0
  byte_order := 0
  math_en := fun _ => 0
  math_v_gain := fun _ => 0
  math_v_offset := fun _ => 0
  math_wave_length := fun _ => 0
  math_s_interval := fun _ => 0
  math_codes_per_div := 1

/-- Closed instance for `onFileNameChanged_analog_calibration`: a v2 file
with one enabled 8-bit channel and byte value 200 everywhere. -/
theorem onFileNameChanged_analog_calibration_witness :
    (((2 : Nat) = 2 ∨ (2 : Nat) = 4) ∧ whV2Sample.data_width ≤ 1 ∧
      ((List.finRange 4).filter (fun i => whV2Sample.ch_en i = 1))[0]? =
        some (0 : Fin 4)) ∧
    (∃ s, (onFileNameChanged 1 false 2 whV2Sample
        (fun _ => 200)).analogStreams[0]? = some s ∧
      s.sampleCount = whV2Sample.wave_length ∧
      s.samples.length = whV2Sample.wave_length ∧
      (∀ k, k < whV2Sample.wave_length →
        s.samples[k]? = some
          (((if whV2Sample.data_width + 1 = 2 then
                (u16At (fun _ => 200) ((if 2 = 2 then 0x800 else 0x1000) +
                  0 * ((whV2Sample.data_width + 1) * whV2Sample.wave_length) +
                  2 * k) : ℚ)
              else
                (u8At (fun _ => 200) ((if 2 = 2 then 0x800 else 0x1000) +
                  0 * ((whV2Sample.data_width + 1) * whV2Sample.wave_length) +
                  k) : ℚ))
            - ((2 ^ (8 * (whV2Sample.data_width + 1) - 1) - 1 : Int) : ℚ))
            * (whV2Sample.ch_v_gain 0 * whV2Sample.ch_probe 0 /
                (whV2Sample.ch_codes_per_div 0 : ℚ))
            - whV2Sample.ch_v_offset 0))) :=
  ⟨⟨Or.inl rfl, by decide, by decide⟩,
    onFileNameChanged_analog_calibration 1 false 2 whV2Sample (fun _ => 200)
      0 0 (Or.inl rfl) (by decide) (by decide)⟩

end SiglentBIN

namespace SiglentMin

/-- Enable cache with exactly channels 2 and 3 enabled (the fixed pair
{2,3}, i.e. front-panel channels 3 and 4), all other cached channels
disabled. -/
def enPair23 : EnMap := fun k =>
  if k = 2 ∨ k = 3 then some true else if k ≤ 4 then some false else none

/-- C1: the claim says `IsInterleaving()` returns `false` exactly when both
channels of pair {0,1} or both of pair {2,3} are enabled.  On the cache
state where exactly the pair {2,3} is enabled the function returns `true`:
its second branch reads cache keys 3 and 4 (the source comment says
"Channel 3 and 4", i.e. indices 2 and 3) instead of 2 and 3, so the enabled
pair {2,3} is never seen. -/
theorem isInterleaving_misses_pair23 :
    enPair23 0 = some false ∧ enPair23 1 = some false ∧
    enPair23 2 = some true ∧ enPair23 3 = some true ∧
    enPair23 4 = some false ∧
    (isInterleaving enPair23).2 = true :=
  ⟨rfl, rfl, rfl, rfl, rfl, rfl⟩

/-- C10 (counterexample): from an empty enable cache, `IsInterleaving()`
does not insert an entry for key 1 — `&&` short-circuits after key 0 reads
back `false` — although the claim says every absent key among 0, 1, 3, 4 is
inserted. -/
theorem isInterleaving_skips_key1 :
    ((fun _ => none : EnMap) 1 = none) ∧
    ((isInterleaving (fun _ => none)).1) 1 = none :=
  ⟨rfl, rfl⟩

/-- C10 (amended): `IsInterleaving()` issues no instrument command, and its
only state effect is on the enable cache: key 0 is always read (and
default-inserted as disabled when absent); key 1 is read only when key 0
read back enabled; key 3 only when the {0,1} check did not conclude both
enabled; key 4 only when additionally key 3 read back enabled; every other
key is untouched.  A subsequent `IsChannelEnabled` on a key the call
default-inserted returns the cached `false` with zero instrument round
trips. -/
lemma mapInsert_apply (m : EnMap) (k : Nat) (v : Bool) (j : Nat) :
    mapInsert m k v j = if j = k then some v else m j := rfl

lemma mapIndex_snd (m : EnMap) (k : Nat) :
    (mapIndex m k).2 = (m k).getD false := by
  cases hk : m k <;> simp [mapIndex, hk]

lemma mapIndex_fst_apply (m : EnMap) (k j : Nat) :
    (mapIndex m k).1 j = if j = k then some ((m k).getD false) else m j := by
  cases hk : m k
  · simp [mapIndex, mapInsert, hk]
  · simp only [mapIndex, hk, Option.getD_some]
    split <;> simp_all

lemma getD_false_eq_true {o : Option Bool} (h : o.getD false = true) :
    o = some true := by
  cases o <;> simp_all

lemma checkPair34_fst_apply (m : EnMap) (j : Nat) :
    (checkPair34 m).1 j =
      if j = 4 ∧ (m 3).getD false = true then some ((m 4).getD false)
      else if j = 3 then some ((m 3).getD false)
      else m j := by
  unfold checkPair34
  by_cases hd3 : (m 3).getD false = true
  · simp only [mapIndex_snd, hd3, if_true, apply_ite Prod.fst, ite_self]
    rcases eq_or_ne j 4 with rfl | hj4
    · simp [mapIndex_fst_apply, hd3]
    · rcases eq_or_ne j 3 with rfl | hj3
      · simp [mapIndex_fst_apply, hd3]
      · simp [mapIndex_fst_apply, hj3, hj4]
  · have hd3' : (m 3).getD false = false := by simpa using hd3
    simp only [mapIndex_snd, hd3', Bool.false_eq_true, if_false]
    rcases eq_or_ne j 3 with rfl | hj3
    · simp [mapIndex_fst_apply, hd3']
    · simp [mapIndex_fst_apply, hj3, hd3']

lemma checkPair34_snd (m : EnMap) :
    (checkPair34 m).2 = !((m 3).getD false && (m 4).getD false) := by
  unfold checkPair34
  by_cases hd3 : (m 3).getD false = true
  · simp only [mapIndex_snd, hd3, if_true]
    by_cases hd4 : (m 4).getD false = true
    · simp [mapIndex_fst_apply, mapIndex_snd, hd3, hd4]
    · have hd4' : (m 4).getD false = false := by simpa using hd4
      simp [mapIndex_fst_apply, mapIndex_snd, hd3, hd4']
  · have hd3' : (m 3).getD false = false := by simpa using hd3
    simp [mapIndex_snd, hd3']

/-- Pointwise description of the cache after one `IsInterleaving()` call:
when the {0,1} check concludes (both enabled) nothing changes; otherwise
the keys the short-circuit evaluation actually read are forced present. -/
lemma isInterleaving_fst_apply (m : EnMap) (j : Nat) :
    (isInterleaving m).1 j =
      if (m 0).getD false && (m 1).getD false then m j
      else if j = 4 ∧ (m 3).getD false = true then some ((m 4).getD false)
      else if j = 3 then some ((m 3).getD false)
      else if j = 1 ∧ (m 0).getD false = true then some ((m 1).getD false)
      else if j = 0 then some ((m 0).getD false)
      else m j := by
  by_cases hd0 : (m 0).getD false = true
  · have hm0 : m 0 = some true := getD_false_eq_true hd0
    have e0 : mapIndex m 0 = (m, true) := by simp [mapIndex, hm0]
    by_cases hd1 : (m 1).getD false = true
    · have hm1 : m 1 = some true := getD_false_eq_true hd1
      have e1 : mapIndex m 1 = (m, true) := by simp [mapIndex, hm1]
      simp [isInterleaving, e0, e1, hd0, hd1]
    · have hd1' : (m 1).getD false = false := by simpa using hd1
      simp only [isInterleaving, e0, mapIndex_snd, hd1', Bool.false_eq_true,
        if_false, if_true, hd0, Bool.true_and]
      rw [checkPair34_fst_apply]
      have c3 : (mapIndex m 1).1 3 = m 3 := by simp [mapIndex_fst_apply]
      have c4 : (mapIndex m 1).1 4 = m 4 := by simp [mapIndex_fst_apply]
      rw [c3, c4]
      rcases eq_or_ne j 4 with rfl | hj4
      · simp [c4]
      · rcases eq_or_ne j 3 with rfl | hj3
        · simp [hj4]
        · rcases eq_or_ne j 1 with rfl | hj1
          · simp [mapIndex_fst_apply, hj4, hj3, hd0, hd1']
          · rcases eq_or_ne j 0 with rfl | hj0
            · simp [mapIndex_fst_apply, hj4, hj3, hj1, hm0, hd0]
            · simp [mapIndex_fst_apply, hj4, hj3, hj1, hj0]
  · have hd0' : (m 0).getD false = false := by simpa using hd0
    simp only [isInterleaving, mapIndex_snd, hd0', Bool.false_eq_true, if_false,
      Bool.false_and]
    rw [checkPair34_fst_apply]
    have c3 : (mapIndex m 0).1 3 = m 3 := by simp [mapIndex_fst_apply]
    have c4 : (mapIndex m 0).1 4 = m 4 := by simp [mapIndex_fst_apply]
    rw [c3, c4]
    rcases eq_or_ne j 4 with rfl | hj4
    · simp [c4]
    · rcases eq_or_ne j 3 with rfl | hj3
      · simp [hj4]
      · rcases eq_or_ne j 0 with rfl | hj0
        · simp [mapIndex_fst_apply, hj4, hj3, hd0']
        · simp [mapIndex_fst_apply, hj4, hj3, hj0, hd0']

/-- C10 (amended): `IsInterleaving()` issues no instrument command, and its
only state effect is on the enable cache: key 0 is always read (and
default-inserted as disabled when absent); key 1 is read only when key 0
read back enabled; key 3 only when the {0,1} check did not conclude both
enabled; key 4 only when additionally key 3 read back enabled; every other
key is untouched.  A subsequent `IsChannelEnabled` on a key the call
default-inserted returns the cached `false` with zero instrument round
trips. -/
theorem isInterleaving_frame_effect :
    ∀ (m : EnMap) (nAnalog : Nat) (reply : String),
      ((isInterleaving m).1 0 = some ((m 0).getD false)) ∧
      ((isInterleaving m).1 1 =
        if (m 0).getD false then some ((m 1).getD false) else m 1) ∧
      ((isInterleaving m).1 3 =
        if (m 0).getD false && (m 1).getD false then m 3
        else some ((m 3).getD false)) ∧
      ((isInterleaving m).1 4 =
        if !((m 0).getD false && (m 1).getD false) && (m 3).getD false
        then some ((m 4).getD false) else m 4) ∧
      (∀ k, k ≠ 0 → k ≠ 1 → k ≠ 3 → k ≠ 4 → (isInterleaving m).1 k = m k) ∧
      (∀ k, m k = none → (isInterleaving m).1 k = some false →
        isChannelEnabled nAnalog reply ((isInterleaving m).1) k =
          (false, (isInterleaving m).1, 0)) := by
  intro m nAnalog reply
  refine ⟨?_, ?_, ?_, ?_, ?_, ?_⟩
  · rw [isInterleaving_fst_apply]
    by_cases hd01 : ((m 0).getD false && (m 1).getD false) = true
    · rw [Bool.and_eq_true] at hd01
      simp [Bool.and_eq_true, hd01, getD_false_eq_true hd01.1, hd01.1]
    · have hd01' : ((m 0).getD false && (m 1).getD false) = false := by
        simpa using hd01
      simp [hd01']
  · rw [isInterleaving_fst_apply]
    by_cases hd01 : ((m 0).getD false && (m 1).getD false) = true
    · rw [Bool.and_eq_true] at hd01
      simp [Bool.and_eq_true, hd01, getD_false_eq_true hd01.2, hd01.1, hd01.2]
    · have hd01' : ((m 0).getD false && (m 1).getD false) = false := by
        simpa using hd01
      by_cases hd0 : (m 0).getD false = true
      · have hd1' : (m 1).getD false = false := by
          simpa [hd0] using hd01'
        simp [hd01', hd0, hd1']
      · have hd0' : (m 0).getD false = false := by simpa using hd0
        simp [hd01', hd0']
  · rw [isInterleaving_fst_apply]
    by_cases hd01 : ((m 0).getD false && (m 1).getD false) = true
    · simp [hd01]
    · have hd01' : ((m 0).getD false && (m 1).getD false) = false := by
        simpa using hd01
      simp [hd01']
  · rw [isInterleaving_fst_apply]
    by_cases hd01 : ((m 0).getD false && (m 1).getD false) = true
    · simp [hd01]
    · have hd01' : ((m 0).getD false && (m 1).getD false) = false := by
        simpa using hd01
      by_cases hd3 : (m 3).getD false = true
      · simp [hd01', hd3]
      · have hd3' : (m 3).getD false = false := by simpa using hd3
        simp [hd01', hd3']
  · intro k hk0 hk1 hk3 hk4
    rw [isInterleaving_fst_apply]
    simp [hk0, hk1, hk3, hk4]
  · intro k _ hins
    simp [isChannelEnabled, hins]

/-- Closed instance for `isInterleaving_frame_effect`: from an empty cache,
key 0 is default-inserted as disabled, and a subsequent `IsChannelEnabled 0`
returns the cached `false` with zero round trips. -/
theorem isInterleaving_frame_effect_witness :
    ((isInterleaving (fun _ => none)).1 0 =
      some (((fun _ => none : EnMap) 0).getD false)) ∧
    ((fun _ => none : EnMap) 0 = none) ∧
    isChannelEnabled 4 "ON" ((isInterleaving (fun _ => none)).1) 0 =
      (false, (isInterleaving (fun _ => none)).1, 0) :=
  ⟨(isInterleaving_frame_effect (fun _ => none) 4 "ON").1, rfl,
    (isInterleaving_frame_effect (fun _ => none) 4 "ON").2.2.2.2.2 0 rfl rfl⟩

/-- C8: `EnableChannel(i)` and `DisableChannel(i)` invalidate the
sample-rate and memory-depth cache validity flags exactly when the
interleaving state, as reported by `IsInterleaving()` immediately before
and immediately after the enable-cache update, differs; when the report is
unchanged both flags keep their previous values. -/
theorem enable_disable_invalidate_iff :
    ∀ (nAnalog : Nat) (st : DriverSt) (i : Nat),
      ((enableChannel nAnalog st i).1.sampleRateValid =
        if (isInterleaving (mapInsert (isInterleaving st.en).1 i true)).2 =
            (isInterleaving st.en).2
        then st.sampleRateValid else false) ∧
      ((enableChannel nAnalog st i).1.memoryDepthValid =
        if (isInterleaving (mapInsert (isInterleaving st.en).1 i true)).2 =
            (isInterleaving st.en).2
        then st.memoryDepthValid else false) ∧
      ((disableChannel nAnalog st i).1.sampleRateValid =
        if (isInterleaving (mapInsert (isInterleaving st.en).1 i false)).2 =
            (isInterleaving st.en).2
        then st.sampleRateValid else false) ∧
      ((disableChannel nAnalog st i).1.memoryDepthValid =
        if (isInterleaving (mapInsert (isInterleaving st.en).1 i false)).2 =
            (isInterleaving st.en).2
        then st.memoryDepthValid else false) := by
  intro nAnalog st i
  by_cases he : (isInterleaving (mapInsert (isInterleaving st.en).1 i true)).2 =
      (isInterleaving st.en).2 <;>
  by_cases hd : (isInterleaving (mapInsert (isInterleaving st.en).1 i false)).2 =
      (isInterleaving st.en).2 <;>
  simp [enableChannel, disableChannel, he, hd]

/-- C9 (counterexample): with 4 analog channels, channel index 4 — the
first invalid analog index — is *not* ignored: `SetChannelOffset(4, v)`
issues a `:CHANNEL5:OFFSET` command and caches the value, and
`GetChannelOffset(4)` performs an instrument round trip instead of
returning 0, because both guards test `i > m_analogChannelCount` rather
than `i >= m_analogChannelCount`. -/
theorem channelOffset_boundary_index_not_ignored :
    (setChannelOffset 4 (fun _ => none) 4 1).2 = ["CHANNEL5:OFFSET"] ∧
    (setChannelOffset 4 (fun _ => none) 4 1).1 4 = some 1 ∧
    (getChannelOffset 4 5 (fun _ => none) 4).2.2 = 1 ∧
    (getChannelOffset 4 5 (fun _ => none) 4).1 = 5 := by
  refine ⟨?_, ?_, ?_, ?_⟩ <;> rfl

/-- C9 (amended): for every channel index strictly greater than the analog
channel count, `SetChannelOffset` ignores the request — no command is sent
and the cache is unchanged — and `GetChannelOffset` returns 0 with no
instrument round trip and no cache change. -/
theorem channelOffset_above_count_ignored :
    ∀ (nAnalog i : Nat) (v reply : ℚ) (m : OffsetMap), nAnalog < i →
      setChannelOffset nAnalog m i v = (m, []) ∧
      getChannelOffset nAnalog reply m i = (0, m, 0) := by
  intro nAnalog i v reply m h
  constructor
  · simp [setChannelOffset, h]
  · simp [getChannelOffset, h]

/-- Closed instance for `channelOffset_above_count_ignored` at
`nAnalog = 4`, `i = 5`. -/
theorem channelOffset_above_count_ignored_witness :
    4 < 5 ∧
    (setChannelOffset 4 (fun _ => none) 5 1 = ((fun _ => none), []) ∧
      getChannelOffset 4 2 (fun _ => none) 5 = (0, (fun _ => none), 0)) :=
  ⟨by decide, channelOffset_above_count_ignored 4 5 1 2 (fun _ => none) (by decide)⟩

/-- C4: the `PollTrigger` transition table.  A pending force-trigger is
consumed first: both the pending and armed flags are cleared and TRIGGERED
is reported with no instrument query.  Otherwise status "Arm"/"Ready" arms
and reports RUNNING; "Stop" with armed and one-shot disarms and reports
TRIGGERED; "Stop" with armed but not one-shot reports TRIGGERED leaving
armed set; "Stop" unarmed reports STOPPED; any other status reports
RUNNING.  Finally, one `ForceTrigger` yields exactly one TRIGGERED report:
the first poll after it reports TRIGGERED without querying, and the next
poll never reports TRIGGERED whatever the status string. -/
theorem pollTrigger_transitions :
    ∀ (st : TrigSt) (status : String),
      (st.forced = true →
        pollTrigger st status =
          ({ st with forced := false, armed := false }, TriggerMode.TRIGGERED, 0)) ∧
      (st.forced = false → (status = "Arm" ∨ status = "Ready") →
        pollTrigger st status = ({ st with armed := true }, TriggerMode.RUN, 1)) ∧
      (st.forced = false → st.armed = true → st.oneShot = true →
        pollTrigger st "Stop" = ({ st with armed := false }, TriggerMode.TRIGGERED, 1)) ∧
      (st.forced = false → st.armed = true → st.oneShot = false →
        pollTrigger st "Stop" = (st, TriggerMode.TRIGGERED, 1)) ∧
      (st.forced = false → st.armed = false →
        pollTrigger st "Stop" = (st, TriggerMode.STOP, 1)) ∧
      (st.forced = false → status ≠ "Arm" → status ≠ "Ready" → status ≠ "Stop" →
        pollTrigger st status = (st, TriggerMode.RUN, 1)) ∧
      (st.forced = false →
        (pollTrigger (forceTrigger st) status).2 = (TriggerMode.TRIGGERED, 0) ∧
        ∀ status2,
          (pollTrigger ((pollTrigger (forceTrigger st) status).1) status2).2.1 ≠
            TriggerMode.TRIGGERED) := by
  intro st status
  refine ⟨?_, ?_, ?_, ?_, ?_, ?_, ?_⟩
  · intro hf
    simp [pollTrigger, hf]
  · intro hf hs
    rcases hs with rfl | rfl <;> simp [pollTrigger, hf]
  · intro hf ha h1
    simp [pollTrigger, hf, ha, h1]
  · intro hf ha h1
    simp [pollTrigger, hf, ha, h1]
  · intro hf ha
    simp [pollTrigger, hf, ha]
  · intro hf hA hR hS
    simp [pollTrigger, hf, hA, hR, hS]
  · intro hf
    constructor
    · simp [forceTrigger, pollTrigger, hf]
    · intro status2
      simp only [forceTrigger, pollTrigger, hf, Bool.false_eq_true, if_false,
        if_true]
      split
      · simp
      · split <;> simp

/-- Closed instance for `pollTrigger_transitions`: a pending force-trigger
is consumed into a single TRIGGERED report with no query, and one
`ForceTrigger` from idle yields TRIGGERED exactly once. -/
theorem pollTrigger_transitions_witness :
    ((⟨false, true, true⟩ : TrigSt).forced = true ∧
      pollTrigger ⟨false, true, true⟩ "Stop" =
        ({ armed := false, oneShot := true, forced := false },
          TriggerMode.TRIGGERED, 0)) ∧
    ((⟨false, false, false⟩ : TrigSt).forced = false ∧
      (pollTrigger (forceTrigger ⟨false, false, false⟩) "Arm").2 =
        (TriggerMode.TRIGGERED, 0)) :=
  ⟨⟨rfl, (pollTrigger_transitions ⟨false, true, true⟩ "Stop").1 rfl⟩,
    ⟨rfl, ((pollTrigger_transitions ⟨false, false, false⟩
      "Arm").2.2.2.2.2.2 rfl).1⟩⟩

lemma readRawData_fst_length (n : Nat) (t : Xport) :
    (readRawData n t).1.length = n := by
  simp [readRawData]

lemma readRawData_fst_eq (s : Nat → Nat) (pos n : Nat) (l : List Nat)
    (hlen : l.length = n) (h : ∀ i, i < n → s (pos + i) = l.getD i 0) :
    (readRawData n ⟨s, pos⟩).1 = l := by
  apply List.ext_getElem
  · simp [readRawData, hlen]
  · intro i h1 h2
    simp only [readRawData, List.getElem_map, List.getElem_range]
    rw [h i (by simpa [readRawData] using h1)]
    exact List.getD_eq_getElem l 0 h2

lemma atoiBytes_of_digits (l : List Nat) (h : ∀ c ∈ l, 48 ≤ c ∧ c ≤ 57) :
    atoiBytes l = l.foldl (fun acc c => 10 * acc + (c - 48)) 0 := by
  unfold atoiBytes
  rw [List.takeWhile_eq_self_iff.mpr]
  intro x hx
  exact decide_eq_true (h x hx)

lemma foldl_digits_lt (l : List Nat) (h : ∀ c ∈ l, 48 ≤ c ∧ c ≤ 57) :
    ∀ acc, l.foldl (fun acc c => 10 * acc + (c - 48)) acc <
      (acc + 1) * 10 ^ l.length := by
  induction l with
  | nil => intro acc; simp
  | cons c l ih =>
    intro acc
    have hc := h c (List.mem_cons_self c l)
    have hrest : ∀ x ∈ l, 48 ≤ x ∧ x ≤ 57 :=
      fun x hx => h x (List.mem_cons_of_mem c hx)
    have step := ih hrest (10 * acc + (c - 48))
    have hbound : (10 * acc + (c - 48) + 1) * 10 ^ l.length ≤
        (acc + 1) * 10 ^ (c :: l).length := by
      have h9 : c - 48 ≤ 9 := by omega
      have hmul : 10 * acc + (c - 48) + 1 ≤ (acc + 1) * 10 := by omega
      calc (10 * acc + (c - 48) + 1) * 10 ^ l.length
          ≤ ((acc + 1) * 10) * 10 ^ l.length :=
            Nat.mul_le_mul_right _ hmul
        _ = (acc + 1) * 10 ^ (l.length + 1) := by ring
        _ = (acc + 1) * 10 ^ (c :: l).length := by simp
    exact lt_of_lt_of_le step hbound

lemma atoiBytes_lt_of_digits (l : List Nat) (h : ∀ c ∈ l, 48 ≤ c ∧ c ≤ 57) :
    atoiBytes l < 10 ^ l.length := by
  rw [atoiBytes_of_digits l h]
  simpa using foldl_digits_lt l h 0

lemma finishBlock_spec (d : List Nat) (maxsize : Nat) (hdw : Bool) (t : Xport)
    (hlen : d.length = 9) (hdig : ∀ c ∈ d, 48 ≤ c ∧ c ≤ 57) :
    finishBlock d maxsize hdw t =
      ({ ret := atoiBytes d * (if hdw then 2 else 1),
         destLen := min (atoiBytes d * (if hdw then 2 else 1)) maxsize,
         dest := (readRawData (min (atoiBytes d * (if hdw then 2 else 1)) maxsize) t).1,
         error := false },
       { t with pos := t.pos + min (atoiBytes d * (if hdw then 2 else 1)) maxsize }) := by
  have hlt : atoiBytes d < 10 ^ 9 := hlen ▸ atoiBytes_lt_of_digits d hdig
  have h10 : (10 : Nat) ^ 9 = 1000000000 := by norm_num
  have h32 : (2 : Nat) ^ 32 = 4294967296 := by norm_num
  unfold finishBlock
  cases hdw
  · simp [readRawData]
  · have hmod : (2 * atoiBytes d) % 2 ^ 32 = 2 * atoiBytes d :=
      Nat.mod_eq_of_lt (by omega)
    have hmod' : (2 * atoiBytes d) % 4294967296 = 2 * atoiBytes d :=
      h32 ▸ hmod
    simp [hmod, hmod', readRawData, Nat.mul_comm]

/-- Transport byte stream laid out as a `DESC,#9` header: the tag, then the
9 length digits, then the payload. -/
def streamDESC (d : List Nat) (p : Nat → Nat) : Nat → Nat :=
  fun k => if k < 7 then descTag.getD k 0
    else if k < 16 then d.getD (k - 7) 0 else p (k - 16)

/-- Transport byte stream laid out as a `DAT2,#9` header. -/
def streamDAT2 (d : List Nat) (p : Nat → Nat) : Nat → Nat :=
  fun k => if k < 7 then dat2Tag.getD k 0
    else if k < 16 then d.getD (k - 7) 0 else p (k - 16)

/-- Transport byte stream laid out as a forced-trigger reply: two arbitrary
leading bytes, the inner `:WF D` tag at offset 2, six junk bytes, then the
9 length digits and the payload. -/
def streamWFD (b0 b1 : Nat) (junk : Nat → Nat) (d : List Nat) (p : Nat → Nat) :
    Nat → Nat :=
  fun k => if k = 0 then b0 else if k = 1 then b1
    else if k < 7 then wfdTag.getD (k - 2) 0
    else if k < 13 then junk (k - 7)
    else if k < 22 then d.getD (k - 13) 0 else p (k - 22)

/-- Transport byte stream laid out as a bare `#9` header: the two tag
bytes, then the 9 length digits, then the payload. -/
def streamBare (d : List Nat) (p : Nat → Nat) : Nat → Nat :=
  fun k => if k < 2 then hash9Tag.getD k 0
    else if k < 11 then d.getD (k - 2) 0 else p (k - 11)

/-- Transport byte stream with an arbitrary 7-byte prefix. -/
def streamRaw (hdr : List Nat) (p : Nat → Nat) : Nat → Nat :=
  fun k => if k < 7 then hdr.getD k 0 else p (k - 7)

lemma list_getD_nine (d : List Nat) (hlen : d.length = 9) :
    ([d.getD 0 0, d.getD 1 0, d.getD 2 0, d.getD 3 0, d.getD 4 0,
      d.getD 5 0, d.getD 6 0, d.getD 7 0, d.getD 8 0] : List Nat) = d := by
  apply List.ext_getElem
  · simp [hlen]
  · intro i h1 h2
    simp only [List.length_cons, List.length_nil] at h1
    interval_cases i <;> simp [List.getElem?_eq_getElem h2]

lemma rwb_DESC (d : List Nat) (p : Nat → Nat) (maxsize : Nat) (hdw : Bool)
    (hlen : d.length = 9) :
    readWaveformBlock maxsize hdw ⟨streamDESC d p, 0⟩ =
      finishBlock d maxsize hdw ⟨streamDESC d p, 16⟩ := by
  have h7 : (readRawData 7 ⟨streamDESC d p, 0⟩).1 = descTag :=
    readRawData_fst_eq (streamDESC d p) 0 7 descTag (by rfl)
      (fun i hi => by interval_cases i <;> rfl)
  have h9 : (readRawData 9 ⟨streamDESC d p, 7⟩).1 = d := by
    refine readRawData_fst_eq (streamDESC d p) 7 9 d hlen ?_
    intro i hi
    simp only [streamDESC]
    rw [if_neg (by omega), if_pos (by omega)]
    congr 1
    omega
  have hpos7 : (readRawData 7 (⟨streamDESC d p, 0⟩ : Xport)).2 =
      ⟨streamDESC d p, 7⟩ := rfl
  simp only [readWaveformBlock, hpos7, h7, h9]
  rw [if_pos (Or.inl trivial)]
  rfl

lemma rwb_DAT2 (d : List Nat) (p : Nat → Nat) (maxsize : Nat) (hdw : Bool)
    (hlen : d.length = 9) :
    readWaveformBlock maxsize hdw ⟨streamDAT2 d p, 0⟩ =
      finishBlock d maxsize hdw ⟨streamDAT2 d p, 16⟩ := by
  have h7 : (readRawData 7 ⟨streamDAT2 d p, 0⟩).1 = dat2Tag :=
    readRawData_fst_eq (streamDAT2 d p) 0 7 dat2Tag (by rfl)
      (fun i hi => by interval_cases i <;> rfl)
  have h9 : (readRawData 9 ⟨streamDAT2 d p, 7⟩).1 = d := by
    refine readRawData_fst_eq (streamDAT2 d p) 7 9 d hlen ?_
    intro i hi
    simp only [streamDAT2]
    rw [if_neg (by omega), if_pos (by omega)]
    congr 1
    omega
  have hpos7 : (readRawData 7 (⟨streamDAT2 d p, 0⟩ : Xport)).2 =
      ⟨streamDAT2 d p, 7⟩ := rfl
  simp only [readWaveformBlock, hpos7, h7, h9]
  rw [if_pos (Or.inr trivial)]
  rfl

lemma rwb_WFD (b0 b1 : Nat) (junk : Nat → Nat) (d : List Nat) (p : Nat → Nat)
    (maxsize : Nat) (hdw : Bool) (hlen : d.length = 9) :
    readWaveformBlock maxsize hdw ⟨streamWFD b0 b1 junk d p, 0⟩ =
      finishBlock d maxsize hdw ⟨streamWFD b0 b1 junk d p, 22⟩ := by
  have h7 : (readRawData 7 ⟨streamWFD b0 b1 junk d p, 0⟩).1 =
      [b0, b1, 58, 87, 70, 32, 68] :=
    readRawData_fst_eq (streamWFD b0 b1 junk d p) 0 7 _ (by rfl)
      (fun i hi => by interval_cases i <;> rfl)
  have h9 : (readRawData 9 ⟨streamWFD b0 b1 junk d p, 13⟩).1 = d := by
    refine readRawData_fst_eq (streamWFD b0 b1 junk d p) 13 9 d hlen ?_
    intro i hi
    simp only [streamWFD]
    rw [if_neg (by omega), if_neg (by omega), if_neg (by omega),
      if_neg (by omega), if_pos (by omega)]
    congr 1
    omega
  have hpos7 : (readRawData 7 (⟨streamWFD b0 b1 junk d p, 0⟩ : Xport)).2 =
      ⟨streamWFD b0 b1 junk d p, 7⟩ := rfl
  have hpos13 : (readRawData 6 (⟨streamWFD b0 b1 junk d p, 7⟩ : Xport)).2 =
      ⟨streamWFD b0 b1 junk d p, 13⟩ := rfl
  have hno : ¬([b0, b1, 58, 87, 70, 32, 68] = descTag ∨
      [b0, b1, 58, 87, 70, 32, 68] = dat2Tag) := by
    simp [descTag, dat2Tag]
  simp only [readWaveformBlock, hpos7, h7]
  rw [if_neg hno, if_pos (by rfl)]
  simp only [hpos13, h9]
  rfl

lemma rwb_Bare (d : List Nat) (p : Nat → Nat) (maxsize : Nat) (hdw : Bool)
    (hlen : d.length = 9) (hdig : ∀ c ∈ d, 48 ≤ c ∧ c ≤ 57) :
    readWaveformBlock maxsize hdw ⟨streamBare d p, 0⟩ =
      finishBlock d maxsize hdw ⟨streamBare d p, 11⟩ := by
  have h7 : (readRawData 7 ⟨streamBare d p, 0⟩).1 =
      [35, 57, d.getD 0 0, d.getD 1 0, d.getD 2 0, d.getD 3 0, d.getD 4 0] :=
    readRawData_fst_eq (streamBare d p) 0 7 _ (by rfl)
      (fun i hi => by interval_cases i <;> rfl)
  have h4 : (readRawData 4 ⟨streamBare d p, 7⟩).1 =
      [d.getD 5 0, d.getD 6 0, d.getD 7 0, d.getD 8 0] :=
    readRawData_fst_eq (streamBare d p) 7 4 _ (by rfl)
      (fun i hi => by interval_cases i <;> rfl)
  have hd0 : d.getD 0 0 ≤ 57 := by
    have h0lt : 0 < d.length := by omega
    have hm : d.getD 0 0 ∈ d := by
      rw [List.getD_eq_getElem d 0 h0lt]
      exact List.getElem_mem h0lt
    exact (hdig _ hm).2
  have hno : ¬([35, 57, d.getD 0 0, d.getD 1 0, d.getD 2 0, d.getD 3 0,
      d.getD 4 0] = descTag ∨
      [35, 57, d.getD 0 0, d.getD 1 0, d.getD 2 0, d.getD 3 0,
      d.getD 4 0] = dat2Tag) := by
    simp [descTag, dat2Tag]
  have hnwfd : ([35, 57, d.getD 0 0, d.getD 1 0, d.getD 2 0, d.getD 3 0,
      d.getD 4 0] : List Nat).drop 2 ≠ wfdTag := by
    intro hEq
    simp only [List.drop, wfdTag, List.cons.injEq] at hEq
    omega
  have hpos7 : (readRawData 7 (⟨streamBare d p, 0⟩ : Xport)).2 =
      ⟨streamBare d p, 7⟩ := rfl
  simp only [readWaveformBlock, hpos7, h7]
  rw [if_neg hno, if_neg hnwfd, if_pos (by rfl)]
  simp only [h4, List.drop, List.cons_append, List.nil_append]
  rw [list_getD_nine d hlen]
  rfl

lemma rwb_unrecognized (hdr : List Nat) (p : Nat → Nat) (maxsize : Nat)
    (hdw : Bool) (hlen : hdr.length = 7) (h1 : hdr ≠ descTag)
    (h2 : hdr ≠ dat2Tag) (h3 : hdr.drop 2 ≠ wfdTag)
    (h4 : hdr.take 2 ≠ hash9Tag) :
    readWaveformBlock maxsize hdw ⟨streamRaw hdr p, 0⟩ =
      ({ ret := 0, destLen := 0, dest := [], error := true },
        ⟨streamRaw hdr p, 7⟩) := by
  have h7 : (readRawData 7 ⟨streamRaw hdr p, 0⟩).1 = hdr := by
    refine readRawData_fst_eq (streamRaw hdr p) 0 7 hdr hlen ?_
    intro i hi
    simp only [streamRaw, Nat.zero_add]
    rw [if_pos (by omega)]
  have hpos7 : (readRawData 7 (⟨streamRaw hdr p, 0⟩ : Xport)).2 =
      ⟨streamRaw hdr p, 7⟩ := rfl
  simp only [readWaveformBlock, hpos7, h7]
  rw [if_neg (by tauto), if_neg h3, if_neg h4]

/-- C3: each of the four recognized 7-byte header shapes — `DESC,#9`,
`DAT2,#9`, the inner `:WF D` tag at offset 2, and the bare `#9` — parses
the same 9-ASCII-digit decimal payload to the same declared length (and
succeeds); every 7-byte prefix matching none of the four shapes makes
`ReadWaveformBlock` log an error and return 0, consuming exactly the 7
bytes already read. -/
theorem readWaveformBlock_header_shapes :
    ∀ (d : List Nat) (p junk : Nat → Nat) (b0 b1 : Nat) (maxsize : Nat)
      (hdw : Bool) (hdr : List Nat),
      d.length = 9 → (∀ c ∈ d, 48 ≤ c ∧ c ≤ 57) →
      hdr.length = 7 → hdr ≠ descTag → hdr ≠ dat2Tag →
      hdr.drop 2 ≠ wfdTag → hdr.take 2 ≠ hash9Tag →
      ((readWaveformBlock maxsize hdw ⟨streamDESC d p, 0⟩).1.ret =
          atoiBytes d * (if hdw then 2 else 1) ∧
        (readWaveformBlock maxsize hdw ⟨streamDESC d p, 0⟩).1.error = false) ∧
      ((readWaveformBlock maxsize hdw ⟨streamDAT2 d p, 0⟩).1.ret =
          atoiBytes d * (if hdw then 2 else 1) ∧
        (readWaveformBlock maxsize hdw ⟨streamDAT2 d p, 0⟩).1.error = false) ∧
      ((readWaveformBlock maxsize hdw ⟨streamWFD b0 b1 junk d p, 0⟩).1.ret =
          atoiBytes d * (if hdw then 2 else 1) ∧
        (readWaveformBlock maxsize hdw ⟨streamWFD b0 b1 junk d p, 0⟩).1.error = false) ∧
      ((readWaveformBlock maxsize hdw ⟨streamBare d p, 0⟩).1.ret =
          atoiBytes d * (if hdw then 2 else 1) ∧
        (readWaveformBlock maxsize hdw ⟨streamBare d p, 0⟩).1.error = false) ∧
      (readWaveformBlock maxsize hdw ⟨streamRaw hdr p, 0⟩ =
        ({ ret := 0, destLen := 0, dest := [], error := true },
          ⟨streamRaw hdr p, 7⟩)) := by
  intro d p junk b0 b1 maxsize hdw hdr hlen hdig hhlen hh1 hh2 hh3 hh4
  refine ⟨?_, ?_, ?_, ?_, ?_⟩
  · rw [rwb_DESC d p maxsize hdw hlen,
      finishBlock_spec d maxsize hdw _ hlen hdig]
    exact ⟨rfl, rfl⟩
  · rw [rwb_DAT2 d p maxsize hdw hlen,
      finishBlock_spec d maxsize hdw _ hlen hdig]
    exact ⟨rfl, rfl⟩
  · rw [rwb_WFD b0 b1 junk d p maxsize hdw hlen,
      finishBlock_spec d maxsize hdw _ hlen hdig]
    exact ⟨rfl, rfl⟩
  · rw [rwb_Bare d p maxsize hdw hlen hdig,
      finishBlock_spec d maxsize hdw _ hlen hdig]
    exact ⟨rfl, rfl⟩
  · exact rwb_unrecognized hdr p maxsize hdw hhlen hh1 hh2 hh3 hh4

/-- Closed instance for `readWaveformBlock_header_shapes` with digits
"000000042" and the unrecognized prefix "XXXXXXX". -/
theorem readWaveformBlock_header_shapes_witness :
    (([48, 48, 48, 48, 48, 48, 48, 52, 50] : List Nat).length = 9 ∧
      ([88, 88, 88, 88, 88, 88, 88] : List Nat).length = 7) ∧
    ((readWaveformBlock 3 false
        ⟨streamBare [48, 48, 48, 48, 48, 48, 48, 52, 50] (fun _ => 0), 0⟩).1.ret =
      atoiBytes [48, 48, 48, 48, 48, 48, 48, 52, 50] * (if false then 2 else 1)) ∧
    (readWaveformBlock 3 false
        ⟨streamRaw [88, 88, 88, 88, 88, 88, 88] (fun _ => 0), 0⟩ =
      ({ ret := 0, destLen := 0, dest := [], error := true },
        ⟨streamRaw [88, 88, 88, 88, 88, 88, 88] (fun _ => 0), 7⟩)) :=
  ⟨⟨by decide, by decide⟩,
    ((readWaveformBlock_header_shapes [48, 48, 48, 48, 48, 48, 48, 52, 50]
        (fun _ => 0) (fun _ => 0) 1 2 3 false [88, 88, 88, 88, 88, 88, 88]
        (by decide) (by decide) (by decide) (by decide) (by decide)
        (by decide) (by decide)).2.2.2.1).1,
    (readWaveformBlock_header_shapes [48, 48, 48, 48, 48, 48, 48, 52, 50]
        (fun _ => 0) (fun _ => 0) 1 2 3 false [88, 88, 88, 88, 88, 88, 88]
        (by decide) (by decide) (by decide) (by decide) (by decide)
        (by decide) (by decide)).2.2.2.2⟩

/-- C2: for a `DESC,#9` block whose 9 ASCII digits declare length `L`,
`ReadWaveformBlock(maxsize, data, w)` reads exactly
`min(L * (2 if w else 1), maxsize)` payload bytes into the destination
buffer, and returns the un-clamped `L` (doubled under the
high-definition-size workaround), independent of `maxsize`. -/
theorem readWaveformBlock_clamp :
    ∀ (d : List Nat) (p : Nat → Nat) (maxsize : Nat) (hdw : Bool),
      d.length = 9 → (∀ c ∈ d, 48 ≤ c ∧ c ≤ 57) →
      (readWaveformBlock maxsize hdw ⟨streamDESC d p, 0⟩).1.error = false ∧
      (readWaveformBlock maxsize hdw ⟨streamDESC d p, 0⟩).1.destLen =
        min (atoiBytes d * (if hdw then 2 else 1)) maxsize ∧
      (readWaveformBlock maxsize hdw ⟨streamDESC d p, 0⟩).1.ret =
        atoiBytes d * (if hdw then 2 else 1) := by
  intro d p maxsize hdw hlen hdig
  have h7 : (readRawData 7 ⟨streamDESC d p, 0⟩).1 = descTag :=
    readRawData_fst_eq (streamDESC d p) 0 7 descTag (by rfl)
      (fun i hi => by interval_cases i <;> rfl)
  have hpos7 : (readRawData 7 (⟨streamDESC d p, 0⟩ : Xport)).2 =
      ⟨streamDESC d p, 7⟩ := rfl
  have h9 : (readRawData 9 ⟨streamDESC d p, 7⟩).1 = d := by
    refine readRawData_fst_eq (streamDESC d p) 7 9 d hlen ?_
    intro i hi
    simp only [streamDESC]
    rw [if_neg (by omega), if_pos (by omega)]
    congr 1
    omega
  simp only [readWaveformBlock, hpos7, h7, h9]
  rw [if_pos (Or.inl trivial), finishBlock_spec d maxsize hdw _ hlen hdig]
  exact ⟨rfl, rfl, rfl⟩

/-- Closed instance for `readWaveformBlock_clamp`: digits "123456789",
`maxsize = 5`, no workaround: 5 bytes are read and 123456789 returned. -/
theorem readWaveformBlock_clamp_witness :
    (([49, 50, 51, 52, 53, 54, 55, 56, 57] : List Nat).length = 9 ∧
      (∀ c ∈ ([49, 50, 51, 52, 53, 54, 55, 56, 57] : List Nat), 48 ≤ c ∧ c ≤ 57)) ∧
    (readWaveformBlock 5 false
        ⟨streamDESC [49, 50, 51, 52, 53, 54, 55, 56, 57] (fun _ => 0), 0⟩).1.error
      = false ∧
    (readWaveformBlock 5 false
        ⟨streamDESC [49, 50, 51, 52, 53, 54, 55, 56, 57] (fun _ => 0), 0⟩).1.destLen
      = min (atoiBytes [49, 50, 51, 52, 53, 54, 55, 56, 57] * (if false then 2 else 1)) 5 ∧
    (readWaveformBlock 5 false
        ⟨streamDESC [49, 50, 51, 52, 53, 54, 55, 56, 57] (fun _ => 0), 0⟩).1.ret
      = atoiBytes [49, 50, 51, 52, 53, 54, 55, 56, 57] * (if false then 2 else 1) :=
  ⟨⟨by decide, by decide⟩,
    readWaveformBlock_clamp [49, 50, 51, 52, 53, 54, 55, 56, 57] (fun _ => 0)
      5 false (by decide) (by decide)⟩

end SiglentMin
